import Mathlib

/-!
Shallow embedding of the scheduler / lifecycle state machine of
`src/worker.ts` (the dusa search worker), together with proofs of the
specification claims about it.

The external search engine (`./datalog/engine`) is not part of the core:
the worker only relies on the adapter contract described in the spec
(§4.1).  Its operations (`stepTreeRandomDFS`, `makeInitialDb`,
`factToString`) are therefore modelled as components of an environment
record, and all theorems quantify over every environment.

Host-platform primitives are modelled as follows:
- `performance.now()` readings are an arbitrary function `now : Nat → Nat`
  indexed by the loop-condition check count of the current slice, plus a
  `startTime` reading taken at slice entry;
- `Math.random() * CYCLE_LIMIT` (the slice quota jitter) is an arbitrary
  value of `Fin CYCLE_LIMIT`;
- the `setTimeout` continuation handle (`liveLoopHandle`) is the Boolean
  flag `armed` (armed ⟺ the handle is non-null).
-/

namespace DusaWorker

/-- Opaque engine value type (`Data` in `./datalog/data`); the worker never
inspects it, so it is modelled as an opaque wrapper. -/
structure Data where
  val : Nat
deriving DecidableEq

/-- Opaque database produced by `makeInitialDb`; the worker only stores it
inside a leaf of the choice tree. -/
structure Db where
  val : Nat
deriving DecidableEq

/-- Opaque program handle (`Program` in `./datalog/engine`). -/
structure Program where
  pid : Nat
deriving DecidableEq

/-- `CompiledProgram`: the load payload.  The worker reads its `.program`
field and passes the whole record to `makeInitialDb`. -/
structure CompiledProgram where
  program : Program
deriving DecidableEq

/-- Opaque interior node of a choice tree. -/
structure ChoiceTreeNode where
  nid : Nat
deriving DecidableEq

/-- A choice tree.  The worker itself builds only `leaf` nodes
(`{ type: 'leaf', db }` in `load`); everything else is opaque. -/
inductive ChoiceTree where
  | leaf (db : Db)
  | node (n : ChoiceTreeNode)
deriving DecidableEq

/-- An entry of the path component: `Data | 'defer'`. -/
inductive DataOrDefer where
  | value (d : Data)
  | deferred
deriving DecidableEq

/-- The path/cursor into the choice tree:
`[ChoiceTreeNode, Data | 'defer'][]`. -/
abbrev Path := List (ChoiceTreeNode × DataOrDefer)

/-- A `Fact` record (`{ type: 'Fact', name, args, value }`; the constant
`type` tag is omitted). -/
structure Fact where
  name : String
  args : List Data
  value : Data
deriving DecidableEq

/-- A solution reported by a step: `solution.facts` maps each name to a
list of `[args, value]` pairs (`Object.entries` order is modelled by the
list order). -/
structure Solution where
  facts : List (String × List (List Data × Data))
deriving DecidableEq

/-- The record returned by `stepTreeRandomDFS`: the replacement tree
(`null` = exhausted), the replacement path, and an optional solution. -/
structure StepResult where
  tree : Option ChoiceTree
  path : Path
  solution : Option Solution
deriving DecidableEq

/-- `WorkerStats`: `{ cycles, deadEnds }`. -/
structure WorkerStats where
  cycles : Nat
  deadEnds : Nat
deriving DecidableEq

/-- The worker's mutable module state: `program`, `queuedFacts`,
`queuedError`, `stats`, `tree`, `path`, and the continuation flag
(`armed` ⟺ `liveLoopHandle !== null`). -/
structure WorkerState where
  program? : Option Program
  queuedFacts? : Option (List Fact)
  queuedError? : Option String
  stats : WorkerStats
  tree? : Option ChoiceTree
  path : Path
  armed : Bool
deriving DecidableEq

/-- The five inferred lifecycle states. -/
inductive LifecycleState where
  | running
  | error
  | saturated
  | done
  | paused
deriving DecidableEq

/-- Notifications sent to the host (`WorkerToApp`); each carries the
current stats snapshot. -/
inductive WorkerToApp where
  | hello (stats : WorkerStats)
  | saturated (stats : WorkerStats) (facts : List String) (last : Bool)
  | paused (stats : WorkerStats)
  | running (stats : WorkerStats)
  | done (stats : WorkerStats)
  | error (stats : WorkerStats) (message : String)
  | reset (stats : WorkerStats)
deriving DecidableEq

/-- Commands received from the host (`AppToWorker`). -/
inductive AppToWorker where
  | status
  | stop
  | load (program : CompiledProgram)
  | start
  | reset
deriving DecidableEq

/-- `const CYCLE_LIMIT = 10000` — the base step quota per slice. -/
def CYCLE_LIMIT : Nat := 10000

/-- `const TIME_LIMIT = 500` — the wall-clock budget per slice. -/
def TIME_LIMIT : Nat := 500

/-- Flattening of a solution into an ordered `Fact` list, as in `cycle`:
`[].concat(...Object.entries(result.solution.facts).map(([name, argses]) =>
argses.map(([args, value]) => ({type: 'Fact', name, args, value}))))`. -/
def flattenSolution (sol : Solution) : List Fact :=
  (sol.facts.map (fun nv => nv.2.map
    (fun av => { name := nv.1, args := av.1, value := av.2 }))).flatten

/-- Modelled from the spec: the Search Stepper Adapter contract (§4.1) and
host primitives consumed by one slice.  `stepTreeRandomDFS` is code of the
repository that is not under `src/`, so it is kept abstract: `step k`
is the `k`-th invocation within the slice (the index absorbs the engine's
internal randomness); it returns the stats as mutated in place by the
engine together with either a `StepResult` or the message of a raised
`EngineError`.  `randomJitter` models `Math.random() * CYCLE_LIMIT`
(a value in `[0, CYCLE_LIMIT)`), `startTime` the `performance.now()`
reading at slice entry, and `now k` the reading at the `k`-th
loop-condition check. -/
structure SliceEnv where
  step : Nat → Option Program → ChoiceTree → Path → WorkerStats →
    WorkerStats × Except String StepResult
  randomJitter : Fin CYCLE_LIMIT
  startTime : Nat
  now : Nat → Nat

/-- The jitter added to the step quota, as a natural number. -/
def SliceEnv.jitter (env : SliceEnv) : Nat := env.randomJitter.val

/-- Modelled from the spec: the engine operations used by command
processing — `makeInitialDb` (may raise, modelled as `Except`) and
`factToString` — both code of the repository not under `src/`. -/
structure ExtEnv where
  makeInitialDb : CompiledProgram → Except String Db
  factToString : Fact → String

/-- The body of `cycle`'s `while` loop, with explicit fuel (the JS loop
need not terminate for an arbitrary engine; `none` models running out of
fuel).  `k` is the index of the next loop-condition check / step
invocation; the final `Nat` of the result is the number of `step`
invocations performed (a ghost instrumentation).  Loop guard:
`stats.cycles < limit && start + TIME_LIMIT > performance.now()`. -/
def cycleGo (env : SliceEnv) (limit : Nat) :
    Nat → Nat → WorkerState → Option (Bool × WorkerState × Nat)
  | 0, _, _ => none
  | fuel + 1, k, st =>
    if st.stats.cycles < limit ∧ env.startTime + TIME_LIMIT > env.now k then
      match st.tree? with
      | none => some (false, st, 0)
      | some t =>
        match env.step k st.program? t st.path st.stats with
        | (stats1, Except.error e) =>
          some (false, { st with stats := stats1, queuedError? := some e }, 1)
        | (stats1, Except.ok res) =>
          let st1 : WorkerState :=
            { st with
              stats := stats1
              tree? := res.tree
              path := match res.tree with | none => st.path | some _ => res.path }
          match res.solution with
          | some sol =>
            some (false, { st1 with queuedFacts? := some (flattenSolution sol) }, 1)
          | none =>
            match cycleGo env limit fuel (k + 1) st1 with
            | none => none
            | some (r, st2, c) => some (r, st2, c + 1)
    else
      some (true, st, 0)

/-- `cycle()`: computes the quota
`limit = stats.cycles + CYCLE_LIMIT + Math.random() * CYCLE_LIMIT`,
records `start = performance.now()`, and runs the bounded loop. -/
def cycle (env : SliceEnv) (fuel : Nat) (st : WorkerState) :
    Option (Bool × WorkerState × Nat) :=
  cycleGo env (st.stats.cycles + CYCLE_LIMIT + env.jitter) fuel 0 st

/-- `liveLoop()`: run one slice; re-arm the continuation iff `cycle`
returned `true`.  The result also carries the ghost step count. -/
def liveLoop (env : SliceEnv) (fuel : Nat) (st : WorkerState) :
    Option (WorkerState × Nat) :=
  match cycle env fuel st with
  | none => none
  | some (r, st', c) => some ({ st' with armed := r }, c)

/-- The state inference at the top of `onmessage`: running if the handle
is armed, else error if an error is queued, else saturated if facts are
queued, else done if the tree is `null`, else paused. -/
def inferState (s : WorkerState) : LifecycleState :=
  if s.armed then LifecycleState.running
  else if s.queuedError?.isSome then LifecycleState.error
  else if s.queuedFacts?.isSome then LifecycleState.saturated
  else if s.tree?.isNone then LifecycleState.done
  else LifecycleState.paused

/-- `resume(state)`: post the notification for `state`; `running` arms a
continuation, `saturated` formats the queued facts, reports
`last = (tree === null)` and clears `queuedFacts`.  (`queuedError!` /
`queuedFacts!` are non-null assertions in the source; at every call site
the corresponding flag is set, so `Option.getD` is a faithful rendering.) -/
def resume (env : ExtEnv) (state : LifecycleState) (s : WorkerState) :
    WorkerState × WorkerToApp :=
  match state with
  | LifecycleState.error => (s, WorkerToApp.error s.stats (s.queuedError?.getD ""))
  | LifecycleState.paused => (s, WorkerToApp.paused s.stats)
  | LifecycleState.done => (s, WorkerToApp.done s.stats)
  | LifecycleState.running =>
    ({ s with armed := true }, WorkerToApp.running s.stats)
  | LifecycleState.saturated =>
    ({ s with queuedFacts? := none },
      WorkerToApp.saturated s.stats
        ((s.queuedFacts?.getD []).map env.factToString) s.tree?.isNone)

/-- `onmessage`: infer the pre-command state, disarm any armed
continuation (`clearTimeout`), then dispatch on the command.  In `load`,
the `tree` assignment sits inside the `try`, so when `makeInitialDb`
raises, `tree` keeps its previous value (only `path` was cleared). -/
def handleMessage (env : ExtEnv) (s0 : WorkerState) (msg : AppToWorker) :
    WorkerState × WorkerToApp :=
  let state := inferState s0
  let s1 : WorkerState := { s0 with armed := false }
  match msg with
  | AppToWorker.load cp =>
    let s2 : WorkerState :=
      { s1 with
        stats := { cycles := 0, deadEnds := 0 }
        path := []
        program? := some cp.program
        queuedFacts? := none
        queuedError? := none }
    match env.makeInitialDb cp with
    | Except.ok db => resume env LifecycleState.paused
        { s2 with tree? := some (ChoiceTree.leaf db) }
    | Except.error e => resume env LifecycleState.error
        { s2 with queuedError? := some e }
  | AppToWorker.start =>
    if state = LifecycleState.paused then resume env LifecycleState.running s1
    else resume env state s1
  | AppToWorker.stop =>
    if state = LifecycleState.running then resume env LifecycleState.paused s1
    else resume env state s1
  | AppToWorker.reset =>
    ({ program? := none
       queuedFacts? := none
       queuedError? := none
       stats := { cycles := 0, deadEnds := 0 }
       tree? := none
       path := []
       armed := false },
      WorkerToApp.reset { cycles := 0, deadEnds := 0 })
  | AppToWorker.status => resume env state s1

/-- The initial module state: all globals `null`/empty, stats zeroed,
no continuation armed. -/
def initialState : WorkerState :=
  { program? := none
    queuedFacts? := none
    queuedError? := none
    stats := { cycles := 0, deadEnds := 0 }
    tree? := none
    path := []
    armed := false }

/-- The states reachable by the worker: the initial state, closed under
processing a command (with any engine environment) and under an armed
slice firing (with any slice environment and enough fuel for the slice to
complete). -/
inductive Reachable : WorkerState → Prop where
  | init : Reachable initialState
  | cmd {s : WorkerState} (env : ExtEnv) (m : AppToWorker) :
      Reachable s → Reachable (handleMessage env s m).1
  | slice {s s' : WorkerState} {c : Nat} (env : SliceEnv) (fuel : Nat) :
      Reachable s → s.armed = true → liveLoop env fuel s = some (s', c) →
      Reachable s'

/-- A concrete engine environment used to instantiate theorems at
concrete inputs. -/
def envW : ExtEnv :=
  { makeInitialDb := fun _ => Except.ok { val := 0 }
    factToString := fun f => f.name }

/-- A concrete state in the `error` lifecycle state. -/
def errPre : WorkerState :=
  { program? := some { pid := 0 }
    queuedFacts? := none
    queuedError? := some "EngineError: boom"
    stats := { cycles := 2, deadEnds := 1 }
    tree? := some (ChoiceTree.leaf { val := 0 })
    path := []
    armed := false }

/-- A concrete state in the `running` lifecycle state. -/
def runPre : WorkerState :=
  { program? := some { pid := 0 }
    queuedFacts? := none
    queuedError? := none
    stats := { cycles := 7, deadEnds := 2 }
    tree? := some (ChoiceTree.leaf { val := 0 })
    path := []
    armed := true }

/-- A concrete state in the `saturated` lifecycle state: one queued fact,
exhausted tree. -/
def satPre : WorkerState :=
  { program? := some { pid := 0 }
    queuedFacts? := some [{ name := "a", args := [], value := { val := 0 } }]
    queuedError? := none
    stats := { cycles := 3, deadEnds := 1 }
    tree? := none
    path := []
    armed := false }

/-- The state after delivering the solution queued in `satPre`. -/
def satPost : WorkerState :=
  { satPre with armed := false, queuedFacts? := none }

/-- A concrete engine step conforming to the adapter contract: it
increments the step counter and reports the search exhausted (replacement
tree `none`) with no solution. -/
def exhaustStep : Nat → Option Program → ChoiceTree → Path → WorkerStats →
    WorkerStats × Except String StepResult :=
  fun _ _ _ _ w =>
    ({ cycles := w.cycles + 1, deadEnds := w.deadEnds },
     Except.ok { tree := none, path := [], solution := none })

/-- A slice environment in which the single step takes the whole time
budget: the clock reads 500 time units more at each successive
loop-condition check. -/
def envTimeout : SliceEnv :=
  { step := exhaustStep
    randomJitter := ⟨0, by decide⟩
    startTime := 0
    now := fun k => 500 * k }

/-- A slice environment whose step exhausts the search immediately and
whose clock never advances. -/
def envExhaust : SliceEnv :=
  { step := exhaustStep
    randomJitter := ⟨0, by decide⟩
    startTime := 0
    now := fun _ => 0 }

/-- A freshly started search state (one armed slice, active leaf tree,
zero counters). -/
def slicePre : WorkerState :=
  { program? := some { pid := 0 }
    queuedFacts? := none
    queuedError? := none
    stats := { cycles := 0, deadEnds := 0 }
    tree? := some (ChoiceTree.leaf { val := 0 })
    path := []
    armed := true }

/-- `slicePre` after one exhausting step. -/
def sliceMid : WorkerState :=
  { slicePre with stats := { cycles := 1, deadEnds := 0 }, tree? := none }

/-- The compiled program used in the concrete load/start runs. -/
def cpW : CompiledProgram := { program := { pid := 0 } }

/-- The state after `load cpW` succeeds from `initialState` under `envW`. -/
def s1AfterLoad : WorkerState :=
  { program? := some { pid := 0 }
    queuedFacts? := none
    queuedError? := none
    stats := { cycles := 0, deadEnds := 0 }
    tree? := some (ChoiceTree.leaf { val := 0 })
    path := []
    armed := false }

/-- The state after `start` from `s1AfterLoad`: one continuation armed. -/
def s2AfterStart : WorkerState := { s1AfterLoad with armed := true }

/-- The state after the first slice under `envExhaust`: one step taken,
tree exhausted, continuation disarmed. -/
def s3AfterSlice : WorkerState :=
  { s1AfterLoad with
    stats := { cycles := 1, deadEnds := 0 }
    tree? := none
    armed := false }

/-- An engine environment whose `makeInitialDb` always raises. -/
def envFail : ExtEnv :=
  { makeInitialDb := fun _ => Except.error "EngineError: bad program"
    factToString := fun f => f.name }

/-- A state holding the search of a previously loaded program (active
tree, non-empty path, non-zero counters). -/
def loadPre : WorkerState :=
  { program? := some { pid := 1 }
    queuedFacts? := none
    queuedError? := none
    stats := { cycles := 5, deadEnds := 2 }
    tree? := some (ChoiceTree.leaf { val := 7 })
    path := [({ nid := 0 }, DataOrDefer.deferred)]
    armed := false }

/-- The program submitted by the failing second load. -/
def cp2 : CompiledProgram := { program := { pid := 2 } }

/-! ## Basic lemmas about the state inference and command processing -/

/-- Characterization of `inferState`: the five priority-resolved flag
conditions, which are mutually exclusive and exhaustive. -/
lemma inferState_cases (s : WorkerState) :
    (inferState s = LifecycleState.running ↔ s.armed = true)
    ∧ (inferState s = LifecycleState.error ↔
        s.armed = false ∧ s.queuedError?.isSome = true)
    ∧ (inferState s = LifecycleState.saturated ↔
        s.armed = false ∧ s.queuedError? = none ∧ s.queuedFacts?.isSome = true)
    ∧ (inferState s = LifecycleState.done ↔
        s.armed = false ∧ s.queuedError? = none ∧ s.queuedFacts? = none ∧
          s.tree? = none)
    ∧ (inferState s = LifecycleState.paused ↔
        s.armed = false ∧ s.queuedError? = none ∧ s.queuedFacts? = none ∧
          s.tree?.isSome = true) := by
  obtain ⟨p, qf, qe, w, t, pa, a⟩ := s
  cases a <;> cases qe <;> cases qf <;> cases t <;> simp [inferState]

/-- Redundant update removal: disarming an already-disarmed state is the
identity. -/
lemma set_armed_false_eq {s : WorkerState} (h : s.armed = false) :
    ({ s with armed := false } : WorkerState) = s := by
  obtain ⟨p, qf, qe, w, t, pa, a⟩ := s
  subst h
  rfl

/-- Re-arming an already-armed state is the identity. -/
lemma set_armed_true_eq {s : WorkerState} (h : s.armed = true) :
    ({ s with armed := true } : WorkerState) = s := by
  obtain ⟨p, qf, qe, w, t, pa, a⟩ := s
  subst h
  rfl

/-- C1: At the start of processing every command, the lifecycle state is
re-derived as a pure function of the flags (`inferState`, evaluated on the
pre-command state at the top of `handleMessage`), with the priority
armed → running, else error pending → error, else solution pending →
saturated, else exhausted tree (no program loaded included) → done, else
paused.  The five characterizing flag conditions are mutually exclusive
and exhaustive, so exactly one state is inferred for every flag
combination. -/
theorem inferState_five_way_partition (s : WorkerState) :
    ((inferState s = LifecycleState.running ↔ s.armed = true)
    ∧ (inferState s = LifecycleState.error ↔
        s.armed = false ∧ s.queuedError?.isSome = true)
    ∧ (inferState s = LifecycleState.saturated ↔
        s.armed = false ∧ s.queuedError? = none ∧ s.queuedFacts?.isSome = true)
    ∧ (inferState s = LifecycleState.done ↔
        s.armed = false ∧ s.queuedError? = none ∧ s.queuedFacts? = none ∧
          s.tree? = none)
    ∧ (inferState s = LifecycleState.paused ↔
        s.armed = false ∧ s.queuedError? = none ∧ s.queuedFacts? = none ∧
          s.tree?.isSome = true))
    ∧ (∃! c : LifecycleState, inferState s = c) :=
  ⟨inferState_cases s, inferState s, rfl, fun _ h => h.symm⟩

/-- Witness for C1 at a concrete flag combination: with no program loaded
and nothing pending, the inferred state is `done`. -/
theorem inferState_five_way_partition_witness :
    inferState initialState = LifecycleState.done :=
  ((inferState_five_way_partition initialState).1.2.2.2.1).mpr
    ⟨rfl, rfl, rfl, rfl⟩

/-- C4: From every pre-command state, `reset` zeroes the counters, clears
the tree, path, program, queued facts and queued error, leaves the
continuation disarmed (the post-state is exactly `initialState`), and
emits a `reset` notification carrying the zeroed counters; the resulting
state infers as `done` — the semantics of "no program loaded". -/
theorem reset_totality (env : ExtEnv) (s : WorkerState) :
    handleMessage env s AppToWorker.reset =
      (initialState, WorkerToApp.reset { cycles := 0, deadEnds := 0 })
    ∧ inferState (handleMessage env s AppToWorker.reset).1 =
        LifecycleState.done :=
  ⟨rfl, rfl⟩

/-- C5: Once the inferred state is `error`, each of `start`, `stop` and
`status` re-reports the `error` notification with the same captured
message and changes nothing: the post-state equals the pre-state (same
pending error, counters, tree, path, program, and no continuation armed),
so the state remains `error` — only `load` or `reset` can exit it. -/
theorem error_state_propagation (env : ExtEnv) (s : WorkerState)
    (m : AppToWorker) (herr : inferState s = LifecycleState.error)
    (hm : m = AppToWorker.start ∨ m = AppToWorker.stop ∨ m = AppToWorker.status) :
    ∃ e, s.queuedError? = some e
      ∧ handleMessage env s m = (s, WorkerToApp.error s.stats e)
      ∧ inferState (handleMessage env s m).1 = LifecycleState.error := by
  obtain ⟨ha, hqe⟩ := (inferState_cases s).2.1.mp herr
  obtain ⟨e, he⟩ := Option.isSome_iff_exists.mp hqe
  have hs1 : ({ s with armed := false } : WorkerState) = s := set_armed_false_eq ha
  refine ⟨e, he, ?_⟩
  have hmain : handleMessage env s m = (s, WorkerToApp.error s.stats e) := by
    rcases hm with rfl | rfl | rfl <;>
      (simp [handleMessage, resume, herr, he]; rw [← he]; exact hs1)
  exact ⟨hmain, by rw [hmain]; exact herr⟩

/-- Witness for C5: from the concrete error state `errPre`, `status`
re-reports the same message and leaves the state unchanged. -/
theorem error_state_propagation_witness :
    ∃ e, errPre.queuedError? = some e
      ∧ handleMessage envW errPre AppToWorker.status =
          (errPre, WorkerToApp.error errPre.stats e)
      ∧ inferState (handleMessage envW errPre AppToWorker.status).1 =
          LifecycleState.error :=
  error_state_propagation envW errPre AppToWorker.status rfl
    (Or.inr (Or.inr rfl))

/-- C6: Processing `status` while the pre-command state is `running`
disarms and then re-arms the continuation (in the Boolean model of the
timer handle, the post-state is again armed and equals the pre-state) and
emits a `running` notification, leaving counters, tree, path, program,
queued facts and queued error unchanged. -/
theorem status_while_running (env : ExtEnv) (s : WorkerState)
    (hrun : inferState s = LifecycleState.running) :
    handleMessage env s AppToWorker.status = (s, WorkerToApp.running s.stats)
    ∧ (handleMessage env s AppToWorker.status).1.armed = true
    ∧ inferState (handleMessage env s AppToWorker.status).1 =
        LifecycleState.running
    ∧ (handleMessage env s AppToWorker.status).1.stats = s.stats
    ∧ (handleMessage env s AppToWorker.status).1.tree? = s.tree?
    ∧ (handleMessage env s AppToWorker.status).1.path = s.path
    ∧ (handleMessage env s AppToWorker.status).1.program? = s.program?
    ∧ (handleMessage env s AppToWorker.status).1.queuedFacts? = s.queuedFacts?
    ∧ (handleMessage env s AppToWorker.status).1.queuedError? = s.queuedError? := by
  have ha : s.armed = true := (inferState_cases s).1.mp hrun
  have hmain : handleMessage env s AppToWorker.status =
      (s, WorkerToApp.running s.stats) := by
    simp only [handleMessage, resume, hrun]
    rw [Prod.mk.injEq]
    exact ⟨set_armed_true_eq ha, rfl⟩
  rw [hmain]
  exact ⟨rfl, ha, hrun, rfl, rfl, rfl, rfl, rfl, rfl⟩

/-- Witness for C6: from the concrete running state `runPre`. -/
theorem status_while_running_witness :
    handleMessage envW runPre AppToWorker.status =
      (runPre, WorkerToApp.running runPre.stats)
    ∧ (handleMessage envW runPre AppToWorker.status).1.armed = true
    ∧ inferState (handleMessage envW runPre AppToWorker.status).1 =
        LifecycleState.running
    ∧ (handleMessage envW runPre AppToWorker.status).1.stats = runPre.stats
    ∧ (handleMessage envW runPre AppToWorker.status).1.tree? = runPre.tree?
    ∧ (handleMessage envW runPre AppToWorker.status).1.path = runPre.path
    ∧ (handleMessage envW runPre AppToWorker.status).1.program? = runPre.program?
    ∧ (handleMessage envW runPre AppToWorker.status).1.queuedFacts? =
        runPre.queuedFacts?
    ∧ (handleMessage envW runPre AppToWorker.status).1.queuedError? =
        runPre.queuedError? :=
  status_while_running envW runPre rfl

/-- If `resume` produced a `saturated` notification, its state argument
was `saturated`, the notification carries the formatted queued facts, the
`tree === null` flag and the stats snapshot, and the queued facts were
cleared. -/
lemma resume_saturated_inversion {env : ExtEnv} {state : LifecycleState}
    {s1 s' : WorkerState} {w : WorkerStats} {fs : List String} {l : Bool}
    (h : resume env state s1 = (s', WorkerToApp.saturated w fs l)) :
    state = LifecycleState.saturated
    ∧ s' = { s1 with queuedFacts? := none }
    ∧ w = s1.stats
    ∧ fs = (s1.queuedFacts?.getD []).map env.factToString
    ∧ l = s1.tree?.isNone := by
  cases state <;> simp [resume, Prod.ext_iff] at h
  exact ⟨rfl, h.1.symm, h.2.1.symm, h.2.2.1.symm, h.2.2.2.symm⟩

/-- If processing a command emitted a `saturated` notification, the
command was `status`, `start` or `stop`, the pre-command state was
`saturated`, and the post-state is the pre-state with the continuation
disarmed and the queued facts cleared. -/
lemma handle_saturated_inversion {env : ExtEnv} {s : WorkerState}
    {m : AppToWorker} {s' : WorkerState} {w : WorkerStats}
    {fs : List String} {l : Bool}
    (h : handleMessage env s m = (s', WorkerToApp.saturated w fs l)) :
    inferState s = LifecycleState.saturated
    ∧ (m = AppToWorker.status ∨ m = AppToWorker.start ∨ m = AppToWorker.stop)
    ∧ s' = { s with armed := false, queuedFacts? := none }
    ∧ w = s.stats
    ∧ fs = (s.queuedFacts?.getD []).map env.factToString
    ∧ l = s.tree?.isNone := by
  cases m with
  | status =>
    simp only [handleMessage] at h
    obtain ⟨hst, hs', hw, hfs, hl⟩ := resume_saturated_inversion h
    exact ⟨hst, Or.inl rfl, hs', hw, hfs, hl⟩
  | start =>
    simp only [handleMessage] at h
    by_cases hp : inferState s = LifecycleState.paused
    · rw [if_pos hp] at h
      obtain ⟨hst, -⟩ := resume_saturated_inversion h
      exact absurd hst (by simp)
    · rw [if_neg hp] at h
      obtain ⟨hst, hs', hw, hfs, hl⟩ := resume_saturated_inversion h
      exact ⟨hst, Or.inr (Or.inl rfl), hs', hw, hfs, hl⟩
  | stop =>
    simp only [handleMessage] at h
    by_cases hp : inferState s = LifecycleState.running
    · rw [if_pos hp] at h
      obtain ⟨hst, -⟩ := resume_saturated_inversion h
      exact absurd hst (by simp)
    · rw [if_neg hp] at h
      obtain ⟨hst, hs', hw, hfs, hl⟩ := resume_saturated_inversion h
      exact ⟨hst, Or.inr (Or.inr rfl), hs', hw, hfs, hl⟩
  | load cp =>
    simp only [handleMessage] at h
    cases hdb : env.makeInitialDb cp <;> rw [hdb] at h <;>
      obtain ⟨hst, -⟩ := resume_saturated_inversion h <;>
      exact absurd hst (by simp)
  | reset =>
    simp [handleMessage, Prod.ext_iff] at h

/-- Processing any command cannot create a queued solution: if no facts
were queued before, none are queued after. -/
lemma handle_queuedFacts_none (env : ExtEnv) (s : WorkerState)
    (m : AppToWorker) (h : s.queuedFacts? = none) :
    (handleMessage env s m).1.queuedFacts? = none := by
  have hres : ∀ state, ((resume env state
      ({ s with armed := false } : WorkerState)).1).queuedFacts? = none := by
    intro state
    cases state <;> simp [resume, h]
  cases m with
  | status => simpa only [handleMessage] using hres (inferState s)
  | start =>
    by_cases hp : inferState s = LifecycleState.paused
    · simpa only [handleMessage, if_pos hp] using hres LifecycleState.running
    · simpa only [handleMessage, if_neg hp] using hres (inferState s)
  | stop =>
    by_cases hp : inferState s = LifecycleState.running
    · simpa only [handleMessage, if_pos hp] using hres LifecycleState.paused
    · simpa only [handleMessage, if_neg hp] using hres (inferState s)
  | load cp =>
    cases hdb : env.makeInitialDb cp <;> simp [handleMessage, resume, hdb]
  | reset => rfl

/-- C3: Whenever a `saturated` notification is emitted (only `status`,
`start` or `stop` while a solution is pending can emit one), it contains
every buffered fact in `factToString` form, a `last` field that is true
iff the tree is exhausted, and the stats snapshot; the queued facts are
then cleared, so the post-state no longer infers as `saturated`, and no
command processing can create queued facts from none — the pending result
stays `none` until a slice produces another solution or error. -/
theorem saturated_single_delivery :
    (∀ (env : ExtEnv) (s : WorkerState) (m : AppToWorker) (s' : WorkerState)
        (w : WorkerStats) (fs : List String) (l : Bool),
      handleMessage env s m = (s', WorkerToApp.saturated w fs l) →
        inferState s = LifecycleState.saturated
        ∧ (m = AppToWorker.status ∨ m = AppToWorker.start ∨ m = AppToWorker.stop)
        ∧ (∃ qs, s.queuedFacts? = some qs ∧ fs = qs.map env.factToString)
        ∧ l = s.tree?.isNone
        ∧ w = s.stats
        ∧ s' = { s with armed := false, queuedFacts? := none }
        ∧ s'.queuedFacts? = none
        ∧ inferState s' ≠ LifecycleState.saturated)
    ∧ (∀ (env : ExtEnv) (s : WorkerState) (m : AppToWorker),
        s.queuedFacts? = none → (handleMessage env s m).1.queuedFacts? = none) := by
  constructor
  · intro env s m s' w fs l h
    obtain ⟨hst, hm, hs', hw, hfs, hl⟩ := handle_saturated_inversion h
    obtain ⟨-, -, hqf⟩ := (inferState_cases s).2.2.1.mp hst
    obtain ⟨qs, hqs⟩ := Option.isSome_iff_exists.mp hqf
    have hqfs : s'.queuedFacts? = none := by rw [hs']
    refine ⟨hst, hm, ⟨qs, hqs, by rw [hfs, hqs]; rfl⟩, hl, hw, hs', hqfs, ?_⟩
    intro hcon
    obtain ⟨-, -, hsome⟩ := (inferState_cases s').2.2.1.mp hcon
    rw [hqfs] at hsome
    exact absurd hsome (by simp)
  · exact handle_queuedFacts_none

/-- Witness for C3: delivering the solution queued in `satPre` via
`status`. -/
theorem saturated_single_delivery_witness :
    inferState satPre = LifecycleState.saturated
    ∧ inferState satPost ≠ LifecycleState.saturated :=
  ⟨(saturated_single_delivery.1 envW satPre AppToWorker.status satPost
      { cycles := 3, deadEnds := 1 } ["a"] true (by decide)).1,
   (saturated_single_delivery.1 envW satPre AppToWorker.status satPost
      { cycles := 3, deadEnds := 1 } ["a"] true (by decide)).2.2.2.2.2.2.2⟩

/-- C7 counterexample: when a second `load` fails in `makeInitialDb`, the
previous SearchState is NOT destroyed — the `tree` assignment sits inside
the `try`, so the old tree (here the leaf of program 1) survives, even
though the previous CompiledProgram has been replaced by the new one and
the path has been cleared. -/
theorem load_failure_keeps_previous_tree :
    (handleMessage envFail loadPre (AppToWorker.load cp2)).1.tree? =
      some (ChoiceTree.leaf { val := 7 })
    ∧ (handleMessage envFail loadPre (AppToWorker.load cp2)).1.tree? ≠ none
    ∧ (handleMessage envFail loadPre (AppToWorker.load cp2)).1.program? =
        some { pid := 2 }
    ∧ (handleMessage envFail loadPre (AppToWorker.load cp2)).2 =
        WorkerToApp.error { cycles := 0, deadEnds := 0 }
          "EngineError: bad program" := by
  decide

/-- C7 (amended): `load` resets the counters to zero, clears the pending
result, replaces the CompiledProgram, and clears the path; on
`makeInitialDb` success the SearchState is replaced by a fresh leaf and
`paused` is emitted; on failure the error message is stored as the
pending result and `error` is emitted, but the previous SearchState's
tree survives (only the previous CompiledProgram is destroyed). -/
theorem load_lifecycle (env : ExtEnv) (s : WorkerState) (cp : CompiledProgram) :
    (∀ db, env.makeInitialDb cp = Except.ok db →
      handleMessage env s (AppToWorker.load cp) =
        ({ program? := some cp.program
           queuedFacts? := none
           queuedError? := none
           stats := { cycles := 0, deadEnds := 0 }
           tree? := some (ChoiceTree.leaf db)
           path := []
           armed := false },
         WorkerToApp.paused { cycles := 0, deadEnds := 0 })
      ∧ inferState (handleMessage env s (AppToWorker.load cp)).1 =
          LifecycleState.paused)
    ∧ (∀ e, env.makeInitialDb cp = Except.error e →
      handleMessage env s (AppToWorker.load cp) =
        ({ program? := some cp.program
           queuedFacts? := none
           queuedError? := some e
           stats := { cycles := 0, deadEnds := 0 }
           tree? := s.tree?
           path := []
           armed := false },
         WorkerToApp.error { cycles := 0, deadEnds := 0 } e)
      ∧ inferState (handleMessage env s (AppToWorker.load cp)).1 =
          LifecycleState.error) := by
  constructor
  · intro db hdb
    have hmain : handleMessage env s (AppToWorker.load cp) =
        ({ program? := some cp.program
           queuedFacts? := none
           queuedError? := none
           stats := { cycles := 0, deadEnds := 0 }
           tree? := some (ChoiceTree.leaf db)
           path := []
           armed := false },
         WorkerToApp.paused { cycles := 0, deadEnds := 0 }) := by
      simp [handleMessage, resume, hdb]
    exact ⟨hmain, by rw [hmain]; rfl⟩
  · intro e hdb
    have hmain : handleMessage env s (AppToWorker.load cp) =
        ({ program? := some cp.program
           queuedFacts? := none
           queuedError? := some e
           stats := { cycles := 0, deadEnds := 0 }
           tree? := s.tree?
           path := []
           armed := false },
         WorkerToApp.error { cycles := 0, deadEnds := 0 } e) := by
      simp [handleMessage, resume, hdb]
    exact ⟨hmain, by rw [hmain]; rfl⟩

/-- Witness for C7 (amended): a successful load from `loadPre` under
`envW`, and the failing load from `loadPre` under `envFail`. -/
theorem load_lifecycle_witness :
    handleMessage envW loadPre (AppToWorker.load cp2) =
      ({ program? := some { pid := 2 }
         queuedFacts? := none
         queuedError? := none
         stats := { cycles := 0, deadEnds := 0 }
         tree? := some (ChoiceTree.leaf { val := 0 })
         path := []
         armed := false },
       WorkerToApp.paused { cycles := 0, deadEnds := 0 })
    ∧ inferState (handleMessage envFail loadPre (AppToWorker.load cp2)).1 =
        LifecycleState.error :=
  ⟨((load_lifecycle envW loadPre cp2).1 { val := 0 } rfl).1,
   ((load_lifecycle envFail loadPre cp2).2 "EngineError: bad program" rfl).2⟩

/-! ## Lemmas about the slice runner -/

/-- At slice entry the quota strictly exceeds the current step counter
(the base quota is positive), so only the time budget can end a slice
before its first iteration. -/
lemma quota_entry_lt (st : WorkerState) (env : SliceEnv) :
    st.stats.cycles < st.stats.cycles + CYCLE_LIMIT + env.jitter := by
  have : 0 < CYCLE_LIMIT := by decide
  omega

/-- When the loop guard fails, the slice stops at once: it returns `true`
(reschedule), leaves the state untouched, and invokes zero steps. -/
lemma cycleGo_guard_fail {env : SliceEnv} {limit fuel k : Nat}
    {st : WorkerState}
    (hg : ¬(st.stats.cycles < limit ∧ env.startTime + TIME_LIMIT > env.now k)) :
    cycleGo env limit (fuel + 1) k st = some (true, st, 0) := by
  rw [cycleGo, if_neg hg]

/-- When the guard holds but the tree is exhausted, the slice returns
`false`, leaves the state untouched, and invokes zero steps. -/
lemma cycleGo_exhausted_entry {env : SliceEnv} {limit fuel k : Nat}
    {st : WorkerState} (ht : st.tree? = none)
    (hg : st.stats.cycles < limit ∧ env.startTime + TIME_LIMIT > env.now k) :
    cycleGo env limit (fuel + 1) k st = some (false, st, 0) := by
  rw [cycleGo, if_pos hg]
  simp only [ht]

/-- When the guard holds, the tree is active and the step raises, the
slice captures the message as the queued error and returns `false` after
that one step. -/
lemma cycleGo_step_error {env : SliceEnv} {limit fuel k : Nat}
    {st : WorkerState} {t : ChoiceTree} {stats1 : WorkerStats} {e : String}
    (ht : st.tree? = some t)
    (hg : st.stats.cycles < limit ∧ env.startTime + TIME_LIMIT > env.now k)
    (hs : env.step k st.program? t st.path st.stats = (stats1, Except.error e)) :
    cycleGo env limit (fuel + 1) k st =
      some (false, { st with stats := stats1, queuedError? := some e }, 1) := by
  rw [cycleGo, if_pos hg]
  simp only [ht, hs]

/-- When the guard holds, the tree is active and the step reports a
solution, the slice flattens it into the queued facts and returns `false`
after that one step. -/
lemma cycleGo_step_solution {env : SliceEnv} {limit fuel k : Nat}
    {st : WorkerState} {t : ChoiceTree} {stats1 : WorkerStats}
    {res : StepResult} {sol : Solution}
    (ht : st.tree? = some t)
    (hg : st.stats.cycles < limit ∧ env.startTime + TIME_LIMIT > env.now k)
    (hs : env.step k st.program? t st.path st.stats = (stats1, Except.ok res))
    (hsol : res.solution = some sol) :
    cycleGo env limit (fuel + 1) k st =
      some (false,
        { st with
          stats := stats1
          tree? := res.tree
          path := match res.tree with | none => st.path | some _ => res.path
          queuedFacts? := some (flattenSolution sol) }, 1) := by
  rw [cycleGo, if_pos hg]
  simp only [ht, hs, hsol]

/-- When the guard holds and the tree is active, the slice invokes at
least one step before producing any outcome. -/
lemma cycleGo_calls_pos {env : SliceEnv} {limit fuel k : Nat}
    {st : WorkerState} {t : ChoiceTree} (ht : st.tree? = some t)
    (hg : st.stats.cycles < limit ∧ env.startTime + TIME_LIMIT > env.now k) :
    ∀ (r : Bool) (st' : WorkerState),
      cycleGo env limit (fuel + 1) k st ≠ some (r, st', 0) := by
  intro r st' hcon
  rw [cycleGo, if_pos hg] at hcon
  simp only [ht] at hcon
  rcases hstep : env.step k st.program? t st.path st.stats with ⟨stats1, e | res⟩ <;>
    simp only [hstep] at hcon
  · simp at hcon
  · cases hsol : res.solution <;> simp only [hsol] at hcon
    · rcases hrec : cycleGo env limit fuel (k + 1)
        { st with
          stats := stats1
          tree? := res.tree
          path := match res.tree with | none => st.path | some _ => res.path } with
        _ | ⟨r2, st2, c2⟩ <;> simp [hrec] at hcon
    · simp at hcon

/-- Full characterization of a completed slice run: if it returned
`true`, the queued results are unchanged and the final guard check (the
`c`-th, with `c` the number of steps invoked) failed; if it returned
`false`, either the tree was observed exhausted under a passing guard
with the queued results unchanged, or a step raised (error queued), or a
step reported a solution (facts queued). -/
lemma cycleGo_spec (env : SliceEnv) (limit : Nat) :
    ∀ (fuel k : Nat) (st : WorkerState) (r : Bool) (st' : WorkerState) (c : Nat),
      cycleGo env limit fuel k st = some (r, st', c) →
      (r = true →
        st'.queuedFacts? = st.queuedFacts? ∧ st'.queuedError? = st.queuedError?
        ∧ ¬(st'.stats.cycles < limit ∧ env.startTime + TIME_LIMIT > env.now (k + c)))
      ∧ (r = false →
        (st'.tree? = none ∧ st'.queuedFacts? = st.queuedFacts?
          ∧ st'.queuedError? = st.queuedError?
          ∧ st'.stats.cycles < limit ∧ env.startTime + TIME_LIMIT > env.now (k + c))
        ∨ (∃ e, st'.queuedError? = some e ∧ st'.queuedFacts? = st.queuedFacts?)
        ∨ (∃ fs, st'.queuedFacts? = some fs ∧ st'.queuedError? = st.queuedError?)) := by
  intro fuel
  induction fuel with
  | zero =>
    intro k st r st' c h
    exact absurd h (by simp [cycleGo])
  | succ n ih =>
    intro k st r st' c h
    by_cases hg : st.stats.cycles < limit ∧ env.startTime + TIME_LIMIT > env.now k
    · rw [cycleGo, if_pos hg] at h
      cases ht : st.tree? with
      | none =>
        simp only [ht] at h
        injection h with h1
        injection h1 with hr h2
        injection h2 with hst hc
        subst hr; subst hst; subst hc
        exact ⟨fun hcon => by simp at hcon,
          fun _ => Or.inl ⟨ht, rfl, rfl, by simpa using hg⟩⟩
      | some t =>
        simp only [ht] at h
        rcases hstep : env.step k st.program? t st.path st.stats with
          ⟨stats1, e | res⟩ <;> simp only [hstep] at h
        · injection h with h1
          injection h1 with hr h2
          injection h2 with hst hc
          subst hr; subst hst; subst hc
          exact ⟨fun hcon => by simp at hcon,
            fun _ => Or.inr (Or.inl ⟨e, rfl, rfl⟩)⟩
        · cases hsol : res.solution with
          | some sol =>
            simp only [hsol] at h
            injection h with h1
            injection h1 with hr h2
            injection h2 with hst hc
            subst hr; subst hst; subst hc
            exact ⟨fun hcon => by simp at hcon,
              fun _ => Or.inr (Or.inr ⟨flattenSolution sol, rfl, rfl⟩)⟩
          | none =>
            simp only [hsol] at h
            rcases hrec : cycleGo env limit n (k + 1)
              { st with
                stats := stats1
                tree? := res.tree
                path := match res.tree with | none => st.path | some _ => res.path }
              with _ | ⟨r2, st2, c2⟩ <;> rw [hrec] at h
            · exact absurd h (by simp)
            · injection h with h1
              injection h1 with hr h2
              injection h2 with hst hc
              subst hr; subst hst; subst hc
              have hk : k + (c2 + 1) = (k + 1) + c2 := by omega
              obtain ⟨ihT, ihF⟩ := ih (k + 1) _ r2 st2 c2 hrec
              constructor
              · intro hr2
                obtain ⟨h1, h2, h3⟩ := ihT hr2
                exact ⟨h1, h2, by rw [hk]; exact h3⟩
              · intro hr2
                rcases ihF hr2 with ⟨h1, h2, h3, h4, h5⟩ | ⟨e, h1, h2⟩ | ⟨fs, h1, h2⟩
                · exact Or.inl ⟨h1, h2, h3, h4, by rw [hk]; exact h5⟩
                · exact Or.inr (Or.inl ⟨e, h1, h2⟩)
                · exact Or.inr (Or.inr ⟨fs, h1, h2⟩)
    · rw [cycleGo, if_neg hg] at h
      injection h with h1
      injection h1 with hr h2
      injection h2 with hst hc
      subst hr; subst hst; subst hc
      exact ⟨fun _ => ⟨rfl, rfl, by simpa using hg⟩, fun hcon => by simp at hcon⟩

/-- C2 counterexample: `cycle` can return `true` even though SearchState
became exhausted.  Under `envTimeout`, the first (and only) step exhausts
the tree with no solution, and the time budget expires at the next guard
check, so the loop exits through the guard with `tree = null` and returns
`true` — contradicting "it returns false when SearchState becomes
exhausted" and "returns true … with SearchState still active".  (The
`tree === null` exit in the source is checked inside the loop body, after
the guard.) -/
theorem cycle_true_with_exhausted_tree :
    cycle envTimeout 2 slicePre = some (true, sliceMid, 1)
    ∧ sliceMid.tree? = none
    ∧ slicePre.queuedFacts? = none ∧ slicePre.queuedError? = none
    ∧ sliceMid.queuedFacts? = none ∧ sliceMid.queuedError? = none := by
  decide

/-- C2 (amended): For every completed invocation of `cycle` that started
with no queued result, the return value classifies the outcome as
follows.  `cycle` returns `true` iff no solution and no error were queued
and the final guard check failed (the step quota or the time budget was
reached) — SearchState may be active **or may have been exhausted by the
final step before that check**.  It returns `false` when a step raised
(the message is queued as the error, and the slice stops after that
step), when a step reported a solution (flattened into an ordered `Fact`
list and queued, the slice stopping after that step), or when SearchState
was observed exhausted at the top of an iteration (in which case no
further step is invoked: with the tree exhausted at entry, zero steps
run and the state is unchanged). -/
theorem cycle_outcome_classification (env : SliceEnv) (fuel : Nat)
    (st : WorkerState) (r : Bool) (st' : WorkerState) (c : Nat)
    (hqf : st.queuedFacts? = none) (hqe : st.queuedError? = none)
    (h : cycle env fuel st = some (r, st', c)) :
    (r = true ↔
      st'.queuedFacts? = none ∧ st'.queuedError? = none
      ∧ ¬(st'.stats.cycles < st.stats.cycles + CYCLE_LIMIT + env.jitter
          ∧ env.startTime + TIME_LIMIT > env.now c))
    ∧ (st.tree? = none → st' = st ∧ c = 0)
    ∧ (r = false →
        (∃ e, st'.queuedError? = some e ∧ st'.queuedFacts? = none)
        ∨ (∃ fs, st'.queuedFacts? = some fs ∧ st'.queuedError? = none)
        ∨ (st'.tree? = none ∧ st'.queuedFacts? = none ∧ st'.queuedError? = none))
    ∧ (∀ t stats1 e, st.tree? = some t →
        env.startTime + TIME_LIMIT > env.now 0 →
        env.step 0 st.program? t st.path st.stats = (stats1, Except.error e) →
        (r, st', c) = (false, { st with stats := stats1, queuedError? := some e }, 1))
    ∧ (∀ t stats1 res sol, st.tree? = some t →
        env.startTime + TIME_LIMIT > env.now 0 →
        env.step 0 st.program? t st.path st.stats = (stats1, Except.ok res) →
        res.solution = some sol →
        (r, st', c) = (false,
          { st with
            stats := stats1
            tree? := res.tree
            path := match res.tree with | none => st.path | some _ => res.path
            queuedFacts? := some (flattenSolution sol) }, 1)) := by
  have hcg : cycleGo env (st.stats.cycles + CYCLE_LIMIT + env.jitter) fuel 0 st =
      some (r, st', c) := h
  obtain ⟨hT, hF⟩ := cycleGo_spec env _ fuel 0 st r st' c hcg
  refine ⟨?_, ?_, ?_, ?_, ?_⟩
  · constructor
    · intro hr
      obtain ⟨h1, h2, h3⟩ := hT hr
      exact ⟨h1.trans hqf, h2.trans hqe, by simpa using h3⟩
    · intro hrhs
      cases r with
      | true => rfl
      | false =>
        exfalso
        rcases hF rfl with ⟨-, -, -, h4, h5⟩ | ⟨e, h1, -⟩ | ⟨fs, h1, -⟩
        · exact hrhs.2.2 ⟨h4, by simpa using h5⟩
        · rw [hrhs.2.1] at h1
          exact absurd h1 (by simp)
        · rw [hrhs.1] at h1
          exact absurd h1 (by simp)
  · intro ht
    cases fuel with
    | zero => exact absurd hcg (by simp [cycleGo])
    | succ n =>
      by_cases hg : st.stats.cycles < st.stats.cycles + CYCLE_LIMIT + env.jitter
          ∧ env.startTime + TIME_LIMIT > env.now 0
      · rw [cycleGo_exhausted_entry ht hg] at hcg
        injection hcg with h1
        injection h1 with hr h2
        injection h2 with hst hc
        exact ⟨hst.symm, hc.symm⟩
      · rw [cycleGo_guard_fail hg] at hcg
        injection hcg with h1
        injection h1 with hr h2
        injection h2 with hst hc
        exact ⟨hst.symm, hc.symm⟩
  · intro hr
    rcases hF hr with ⟨h1, h2, h3, -, -⟩ | ⟨e, h1, h2⟩ | ⟨fs, h1, h2⟩
    · exact Or.inr (Or.inr ⟨h1, h2.trans hqf, h3.trans hqe⟩)
    · exact Or.inl ⟨e, h1, h2.trans hqf⟩
    · exact Or.inr (Or.inl ⟨fs, h1, h2.trans hqe⟩)
  · intro t stats1 e ht htime hs
    cases fuel with
    | zero => exact absurd hcg (by simp [cycleGo])
    | succ n =>
      rw [cycleGo_step_error ht ⟨quota_entry_lt st env, htime⟩ hs] at hcg
      injection hcg with h1
      exact h1.symm
  · intro t stats1 res sol ht htime hs hsol
    cases fuel with
    | zero => exact absurd hcg (by simp [cycleGo])
    | succ n =>
      rw [cycleGo_step_solution ht ⟨quota_entry_lt st env, htime⟩ hs hsol] at hcg
      injection hcg with h1
      exact h1.symm

/-- Witness for C2 (amended): the concrete timed-out slice of
`envTimeout` satisfies the classification — after returning `true`, no
result is queued and the final guard check indeed failed. -/
theorem cycle_outcome_classification_witness :
    sliceMid.queuedFacts? = none ∧ sliceMid.queuedError? = none
    ∧ ¬(sliceMid.stats.cycles <
          slicePre.stats.cycles + CYCLE_LIMIT + envTimeout.jitter
        ∧ envTimeout.startTime + TIME_LIMIT > envTimeout.now 1) :=
  ((cycle_outcome_classification envTimeout 2 slicePre true sliceMid 1
      rfl rfl (by decide)).1).mp rfl

/-- C9: Every slice computes its quota as
`steps_so_far + CYCLE_LIMIT + jitter` with `CYCLE_LIMIT = 10000` and the
jitter (the integerized `Math.random() * CYCLE_LIMIT`) in
`[0, CYCLE_LIMIT)`, and uses the fixed deadline
`startTime + TIME_LIMIT` with `TIME_LIMIT = 500`; the stepping loop
continues only while the step counter is below the quota and the clock
reading is before the deadline: a failed guard check stops the slice with
zero further steps, and under a passing guard check with an active tree
at least one step is invoked. -/
theorem slice_quota_and_deadline (env : SliceEnv) (st : WorkerState)
    (fuel k limit : Nat) :
    CYCLE_LIMIT = 10000 ∧ TIME_LIMIT = 500
    ∧ env.jitter < CYCLE_LIMIT
    ∧ cycle env fuel st =
        cycleGo env (st.stats.cycles + CYCLE_LIMIT + env.jitter) fuel 0 st
    ∧ (¬(st.stats.cycles < limit ∧ env.startTime + TIME_LIMIT > env.now k) →
        cycleGo env limit (fuel + 1) k st = some (true, st, 0))
    ∧ (∀ t, st.tree? = some t →
        st.stats.cycles < limit → env.startTime + TIME_LIMIT > env.now k →
        ∀ (r : Bool) (st' : WorkerState),
          cycleGo env limit (fuel + 1) k st ≠ some (r, st', 0)) :=
  ⟨rfl, rfl, env.randomJitter.isLt, rfl,
   fun hg => cycleGo_guard_fail hg,
   fun _ ht h1 h2 => cycleGo_calls_pos ht ⟨h1, h2⟩⟩

/-- Witness for C9: a concrete failed guard check (time budget exceeded)
stops the slice at once. -/
theorem slice_quota_and_deadline_witness :
    cycleGo envTimeout 3 1 5 sliceMid = some (true, sliceMid, 0) :=
  (slice_quota_and_deadline envTimeout sliceMid 0 5 3).2.2.2.2.1 (by decide)

/-- C8 counterexample: after a successful `load`, the tree is always a
non-null leaf (never exhausted), so the first slice after `start` invokes
at least one step.  In the concrete run below, in which the very first
step exhausts the search, the slice invokes one step (not zero) and the
counters end at `{cycles := 1, deadEnds := 0}` (not unchanged at zero),
before the system ends in `done`. -/
theorem first_slice_always_steps :
    handleMessage envW initialState (AppToWorker.load cpW) =
      (s1AfterLoad, WorkerToApp.paused { cycles := 0, deadEnds := 0 })
    ∧ s1AfterLoad.tree? ≠ none
    ∧ handleMessage envW s1AfterLoad AppToWorker.start =
        (s2AfterStart, WorkerToApp.running { cycles := 0, deadEnds := 0 })
    ∧ liveLoop envExhaust 3 s2AfterStart = some (s3AfterSlice, 1)
    ∧ s3AfterSlice.stats = { cycles := 1, deadEnds := 0 }
    ∧ ¬(s3AfterSlice.stats = { cycles := 0, deadEnds := 0 })
    ∧ inferState s3AfterSlice = LifecycleState.done := by
  decide

/-- C8 (amended): a successful `load` always produces an active (leaf)
SearchState and emits `paused`, so the first slice after `start` invokes
at least one step (last conjunct); the "zero steps, counters unchanged,
ends `done`" behavior of the claim holds exactly for a slice whose
SearchState is exhausted at slice entry: such a slice invokes zero steps,
returns `false` leaving the state (hence the counters) unchanged, and the
system infers `done` afterwards. -/
theorem exhausted_slice_zero_steps (env : SliceEnv) (eenv : ExtEnv)
    (s st : WorkerState) (cp : CompiledProgram) (limit fuel k : Nat) :
    (∀ db, eenv.makeInitialDb cp = Except.ok db →
      (handleMessage eenv s (AppToWorker.load cp)).1.tree? =
        some (ChoiceTree.leaf db)
      ∧ (handleMessage eenv s (AppToWorker.load cp)).2 =
          WorkerToApp.paused { cycles := 0, deadEnds := 0 })
    ∧ (st.tree? = none → st.stats.cycles < limit →
        env.startTime + TIME_LIMIT > env.now k →
        cycleGo env limit (fuel + 1) k st = some (false, st, 0))
    ∧ (st.tree? = none → env.startTime + TIME_LIMIT > env.now 0 →
        st.queuedFacts? = none → st.queuedError? = none →
        liveLoop env (fuel + 1) st = some ({ st with armed := false }, 0)
        ∧ inferState ({ st with armed := false } : WorkerState) =
            LifecycleState.done)
    ∧ (∀ t, st.tree? = some t → st.stats.cycles < limit →
        env.startTime + TIME_LIMIT > env.now k →
        ∀ (r : Bool) (st' : WorkerState),
          cycleGo env limit (fuel + 1) k st ≠ some (r, st', 0)) := by
  refine ⟨?_, ?_, ?_, ?_⟩
  · intro db hdb
    constructor <;> simp [handleMessage, resume, hdb]
  · intro ht h1 h2
    exact cycleGo_exhausted_entry ht ⟨h1, h2⟩
  · intro ht htime hqf hqe
    have hc : cycle env (fuel + 1) st = some (false, st, 0) :=
      cycleGo_exhausted_entry ht ⟨quota_entry_lt st env, htime⟩
    constructor
    · unfold liveLoop
      rw [hc]
    · exact ((inferState_cases _).2.2.2.1).mpr ⟨rfl, hqe, hqf, ht⟩
  · intro t ht h1 h2
    exact cycleGo_calls_pos ht ⟨h1, h2⟩

/-- Witness for C8 (amended): a slice entered with the exhausted state
`s3AfterSlice` runs zero steps and yields `done`. -/
theorem exhausted_slice_zero_steps_witness :
    liveLoop envExhaust 1 s3AfterSlice =
      some ({ s3AfterSlice with armed := false }, 0)
    ∧ inferState ({ s3AfterSlice with armed := false } : WorkerState) =
        LifecycleState.done :=
  (exhausted_slice_zero_steps envExhaust envW s3AfterSlice s3AfterSlice cpW
    5 0 0).2.2.1 rfl (by decide) rfl rfl

/-- If processing a command leaves the continuation armed, the post-state
is the pre-state re-armed and the pre-command state was `paused` (the
`start` arm) or `running` (the `status`/`start` re-arm). -/
lemma handle_armed_inversion (env : ExtEnv) (s : WorkerState)
    (m : AppToWorker) (h : (handleMessage env s m).1.armed = true) :
    (handleMessage env s m).1 = { s with armed := true }
    ∧ (inferState s = LifecycleState.paused
       ∨ inferState s = LifecycleState.running) := by
  cases m with
  | reset => exact absurd h (by simp [handleMessage])
  | load cp =>
    cases hdb : env.makeInitialDb cp <;>
      exact absurd h (by simp [handleMessage, resume, hdb])
  | status =>
    cases hst : inferState s with
    | running =>
      refine ⟨?_, Or.inr rfl⟩
      simp [handleMessage, resume, hst]
    | error => exact absurd h (by simp [handleMessage, resume, hst])
    | saturated => exact absurd h (by simp [handleMessage, resume, hst])
    | done => exact absurd h (by simp [handleMessage, resume, hst])
    | paused => exact absurd h (by simp [handleMessage, resume, hst])
  | start =>
    by_cases hp : inferState s = LifecycleState.paused
    · refine ⟨?_, Or.inl hp⟩
      simp [handleMessage, resume, hp]
    · cases hst : inferState s with
      | running =>
        refine ⟨?_, Or.inr rfl⟩
        simp [handleMessage, resume, hst, hp]
      | error => exact absurd h (by simp [handleMessage, resume, hst, hp])
      | saturated => exact absurd h (by simp [handleMessage, resume, hst, hp])
      | done => exact absurd h (by simp [handleMessage, resume, hst, hp])
      | paused => exact absurd hst hp
  | stop =>
    by_cases hp : inferState s = LifecycleState.running
    · exact absurd h (by simp [handleMessage, resume, hp])
    · cases hst : inferState s with
      | running => exact absurd hst hp
      | error => exact absurd h (by simp [handleMessage, resume, hst, hp])
      | saturated => exact absurd h (by simp [handleMessage, resume, hst, hp])
      | done => exact absurd h (by simp [handleMessage, resume, hst, hp])
      | paused => exact absurd h (by simp [handleMessage, resume, hst, hp])

/-- The inductive invariant: in every reachable state, an armed
continuation implies no queued solution and no queued error. -/
lemma reachable_armed_invariant :
    ∀ s : WorkerState, Reachable s → s.armed = true →
      s.queuedFacts? = none ∧ s.queuedError? = none := by
  intro s hr
  induction hr with
  | init => intro h; exact absurd h (by decide)
  | cmd env m hprev ih =>
    intro h
    obtain ⟨heq, hpre⟩ := handle_armed_inversion env _ m h
    rw [heq]
    rcases hpre with hp | hp
    · obtain ⟨-, hqe, hqf, -⟩ := (inferState_cases _).2.2.2.2.mp hp
      exact ⟨hqf, hqe⟩
    · exact ih ((inferState_cases _).1.mp hp)
  | slice env fuel hprev harm hloop ih =>
    rename_i s1 s2 c
    intro h
    obtain ⟨hqf, hqe⟩ := ih harm
    unfold liveLoop at hloop
    rcases hcyc : cycle env fuel s1 with _ | ⟨r, st', c'⟩ <;> rw [hcyc] at hloop
    · exact absurd hloop (by simp)
    · injection hloop with h1
      injection h1 with hs2 hc
      subst hs2
      have hr : r = true := h
      subst hr
      obtain ⟨h1, h2, -⟩ := (cycleGo_spec env _ fuel 0 s1 true st' c' hcyc).1 rfl
      exact ⟨h1.trans hqf, h2.trans hqe⟩

/-- C10: In every reachable state, an armed continuation implies that
PendingResult is none (no solution and no error buffered); a command
leaves the continuation armed only when the pre-command state was
`paused` or `running`; and a slice that queues a solution or an error
always disarms itself. -/
theorem armed_implies_no_pending :
    (∀ s : WorkerState, Reachable s → s.armed = true →
      s.queuedFacts? = none ∧ s.queuedError? = none)
    ∧ (∀ (env : ExtEnv) (s : WorkerState) (m : AppToWorker),
        (handleMessage env s m).1.armed = true →
        inferState s = LifecycleState.paused
        ∨ inferState s = LifecycleState.running)
    ∧ (∀ (env : SliceEnv) (fuel : Nat) (s s' : WorkerState) (c : Nat),
        s.queuedFacts? = none → s.queuedError? = none →
        liveLoop env fuel s = some (s', c) →
        s'.queuedFacts?.isSome = true ∨ s'.queuedError?.isSome = true →
        s'.armed = false) := by
  refine ⟨reachable_armed_invariant,
    fun env s m h => (handle_armed_inversion env s m h).2, ?_⟩
  intro env fuel s s' c hqf hqe hloop hsome
  unfold liveLoop at hloop
  rcases hcyc : cycle env fuel s with _ | ⟨r, st', c'⟩ <;> rw [hcyc] at hloop
  · exact absurd hloop (by simp)
  · injection hloop with h1
    injection h1 with hs' hc
    subst hs'
    cases r with
    | false => rfl
    | true =>
      exfalso
      obtain ⟨h1, h2, -⟩ := (cycleGo_spec env _ fuel 0 s true st' c' hcyc).1 rfl
      simp only [] at hsome
      rcases hsome with hs | hs
      · rw [h1.trans hqf] at hs
        exact absurd hs (by simp)
      · rw [h2.trans hqe] at hs
        exact absurd hs (by simp)

/-- Witness for C10: the reachable armed state `s2AfterStart` (reached by
`load cpW` then `start`) has no queued facts and no queued error. -/
theorem armed_implies_no_pending_witness :
    s2AfterStart.queuedFacts? = none ∧ s2AfterStart.queuedError? = none := by
  have h1 : Reachable s1AfterLoad := by
    have h := Reachable.cmd envW (AppToWorker.load cpW) Reachable.init
    have he : (handleMessage envW initialState (AppToWorker.load cpW)).1 =
        s1AfterLoad := by decide
    rwa [he] at h
  have h2 : Reachable s2AfterStart := by
    have h := Reachable.cmd envW AppToWorker.start h1
    have he : (handleMessage envW s1AfterLoad AppToWorker.start).1 =
        s2AfterStart := by decide
    rwa [he] at h
  exact armed_implies_no_pending.1 s2AfterStart h2 rfl

end DusaWorker
